import Mathlib

/-!
Verification of the puzzle generation and solvability engine of the
waterSort_faceExpression repository.

The definitions below are a shallow embedding of the TypeScript sources:

* `src/utils/sort-puzzle-generator.ts` — seeded PRNG (mulberry32), seed
  derivation (`makeSeedFrom`), the tube-distribution planner
  (`autoDistributeTubes`), and the main generator (`createPuzzle`);
* `src/utils/puzzle-adapter.ts` — difficulty→parameter derivation
  (`generatePuzzleWithAdapter`, `calculateColorDistribution`,
  `selectColors`) and the validator (`validatePuzzle`);
* the puzzle-cache pregeneration memoization (`waitForPregenerate` /
  `pregeneratePuzzles`).

JavaScript 32-bit integer semantics are modelled over `Nat` with explicit
`% 2^32` wrapping: all bitwise operators in the source (`imul`, `^`, `|`,
`>>>`) act on the value's 32-bit pattern, which equals the `Nat` value
modulo `2^32`; `Math.floor(rng() * n)` is exact for the integer ranges
that occur and equals `v * n / 2^32` on the 32-bit value `v`.
JavaScript `number` config fields are modelled as `Int` (negative values
are observable in the validation branches); thrown errors are modelled
with `Except String`.
-/

/-- Wrap-around modulus for JavaScript 32-bit integer semantics. -/
def M32 : Nat := 4294967296

/-- JavaScript `Math.imul` on 32-bit patterns, modelled over `Nat`. -/
def imul32 (a b : Nat) : Nat := (a * b) % M32

/-- One step of the mulberry32 generator from `seededRng` in
`sort-puzzle-generator.ts`: returns the 32-bit output value (the source
divides it by `4294967296` to produce a float) and the updated state. -/
def rngNext (t0 : Nat) : Nat × Nat :=
  let t := (t0 + 0x6D2B79F5) % M32
  let r1 := imul32 (t ^^^ (t / 32768)) (1 ||| t)
  let r2 := r1 ^^^ ((r1 + imul32 (r1 ^^^ (r1 / 128)) (61 ||| r1)) % M32)
  (r2 ^^^ (r2 / 16384), t)

/-- JavaScript `Math.floor(rng() * n)`: exact integer semantics of the
float expression for the ranges used by the generator. -/
def randInt (n : Nat) (st : Nat) : Nat × Nat :=
  let p := rngNext st
  (p.1 * n / M32, p.2)

/-- Seed argument of `createPuzzle`: a JavaScript number or string. -/
inductive SeedVal where
  | num : Int → SeedVal
  | str : List Nat → SeedVal
deriving DecidableEq

/-- FNV-style string hash from `makeSeedFrom`: fold multiply-XOR over the
UTF-16 code units (each `< 2^16`). -/
def fnvHash (cs : List Nat) : Nat :=
  cs.foldl (fun h c => imul32 (h ^^^ (c % 65536)) 16777619) 2166136261

/-- Seed derivation `makeSeedFrom` from `sort-puzzle-generator.ts`.
When no seed is supplied the source draws `(Math.random() * 2**31) >>> 0`;
that nondeterministic draw is modelled by the explicit `fb` argument. -/
def makeSeedFrom : Option SeedVal → Nat → Nat
  | none, fb => fb % M32
  | some (SeedVal.num n), _ => (n.emod (M32 : Int)).toNat
  | some (SeedVal.str cs), _ => fnvHash cs

/-- JavaScript in-place swap `[l[i], l[j]] = [l[j], l[i]]`; in every
reachable call both indices are in range, and the out-of-range fallback
leaves the list unchanged. -/
def listSwap (l : List α) (i j : Nat) : List α :=
  match l[i]?, l[j]? with
  | some vi, some vj => (l.set i vj).set j vi
  | _, _ => l

/-- Descending Fisher–Yates loop body: processes indices `i, i-1, …, 1`,
drawing `j = Math.floor(rng() * (i + 1))` and swapping. -/
def fyGo : List α → Nat → Nat → List α × Nat
  | l, st, 0 => (l, st)
  | l, st, i + 1 =>
    let p := randInt (i + 2) st
    fyGo (listSwap l (i + 1) p.1) p.2 i

/-- Fisher–Yates shuffle as written in the source: `for (let i = len - 1;
i > 0; i--)`. -/
def fyShuffle (l : List α) (st : Nat) : List α × Nat :=
  fyGo l st (l.length - 1)

/-- Increment slot `i` of a tube-count array (`result[idx]++`). -/
def incrAt (l : List Nat) (i : Nat) : List Nat :=
  l.set i (l.getD i 0 + 1)

/-- Remaining-tube distribution loop of `autoDistributeTubes` when
`allowZero = false`: while `remaining > 0`, pick a uniform color index and
give it one more tube. -/
def autoDistribLoop (cc : Nat) : List Nat → Nat → Nat → List Nat × Nat
  | l, st, 0 => (l, st)
  | l, st, r + 1 =>
    let p := randInt cc st
    autoDistribLoop cc (incrAt l p.1) p.2 r

/-- Sequential random partition of `autoDistributeTubes` when
`allowZero = true`: for each color except the last, draw
`Math.floor(rng() * (remaining + 1))` and subtract it. Returns the drawn
prefix, the final remainder, and the PRNG state. -/
def partLoop : Nat → Nat → Nat → List Nat × Nat × Nat
  | rem, st, 0 => ([], rem, st)
  | rem, st, k + 1 =>
    let p := randInt (rem + 1) st
    let q := partLoop (rem - p.1) p.2 k
    (p.1 :: q.1, q.2.1, q.2.2)

/-- `autoDistributeTubes` from `sort-puzzle-generator.ts`. Only called
after the positivity validation, hence over `Nat` counts. -/
def autoDistributeTubes (colorCount tubeCount : Nat) (st : Nat)
    (allowZero : Bool) : Except String (List Nat × Nat) :=
  if allowZero = false ∧ tubeCount < colorCount then
    Except.error "tubeCount < colorCount but allowZeroTubesForColor=false"
  else if allowZero = false then
    Except.ok (autoDistribLoop colorCount (List.replicate colorCount 1) st
      (tubeCount - colorCount))
  else
    let q := partLoop tubeCount st (colorCount - 1)
    Except.ok (fyShuffle (q.1 ++ [q.2.1]) q.2.2)

/-- Generator configuration (`GeneratorConfig` in the source).
`shuffleSteps` is declared by the source interface but never read by
`createPuzzle`, so it is omitted here. -/
structure GeneratorConfig where
  colorCount : Int
  tubeCount : Int
  tubeSize : Int
  perColorTubes : Option (List Int)
  seed : Option SeedVal
  allowZeroTubesForColor : Bool
  emptyTubeCount : Option Int
deriving DecidableEq

/-- Generator output (`PuzzleResult` in the source). -/
structure PuzzleResult where
  tubes : List (List Nat)
  perColorTubes : List Int
  seedUsed : Nat
deriving DecidableEq

/-- Step 1 of `createPuzzle`: validate a supplied `perColorTubes` or run
`autoDistributeTubes`, threading the PRNG state. -/
def chooseDistribution (cfg : GeneratorConfig) (st : Nat) :
    Except String (List Int × Nat) :=
  match cfg.perColorTubes with
  | some l =>
    if (l.length : Int) ≠ cfg.colorCount then
      Except.error "perColorTubes length must equal colorCount"
    else if l.sum ≠ cfg.tubeCount then
      Except.error "perColorTubes must sum to tubeCount"
    else if cfg.allowZeroTubesForColor = false ∧ l.any (fun v => v ≤ 0) then
      Except.error "perColorTubes contains <= 0 but allowZero=false"
    else
      Except.ok (l, st)
  | none =>
    match autoDistributeTubes cfg.colorCount.toNat cfg.tubeCount.toNat st
        cfg.allowZeroTubesForColor with
    | Except.error e => Except.error e
    | Except.ok (d, st1) => Except.ok (d.map (Nat.cast : Nat → Int), st1)

/-- Step 2 of `createPuzzle`: for each color `c` (starting at `c0`),
create `distribution[c]` tubes each filled with `tubeSize` copies of `c`.
A non-positive count contributes no tubes (`for (i = 0; i < cnt; i++)`). -/
def buildTubes (tubeSize : Nat) : Nat → List Int → List (List Nat)
  | _, [] => []
  | c0, d :: rest =>
    List.replicate d.toNat (List.replicate tubeSize c0) ++
      buildTubes tubeSize (c0 + 1) rest

/-- Redistribution of the shuffled flat ball array into `tc` tubes of
`ts` balls each, consumed sequentially (`allBalls[ballIndex++]`). -/
def redistribute (ts : Nat) : List Nat → Nat → List (List Nat)
  | _, 0 => []
  | l, t + 1 => l.take ts :: redistribute ts (l.drop ts) t

/-- Distinct-color count of a tube (`new Set(tube).size`). -/
def distinctCount (l : List Nat) : Nat := l.dedup.length

/-- Diversity predicate of the shuffle loop: every filled tube shows at
least `minC` distinct colors. -/
def diversityMet (tubes : List (List Nat)) (minC : Nat) : Bool :=
  tubes.all (fun t => decide (minC ≤ distinctCount t))

/-- Outcome of the bounded shuffle-retry loop: the filled tubes, the PRNG
state and the value of the source's `attemptCount` counter. -/
structure ShuffleOutcome where
  tubes : List (List Nat)
  state : Nat
  attempts : Nat
deriving DecidableEq

/-- Shuffle-retry loop of `createPuzzle` (`while attemptCount <
maxShuffleAttempts`): shuffle the flat ball array in place, redistribute,
and stop early when the diversity bar is met; when the budget runs out the
last arrangement is kept. `fuel` is the number of attempts still allowed. -/
def shuffleLoop (tc ts minC : Nat) : List Nat → Nat → Nat → Nat → ShuffleOutcome
  | _, st, att, 0 => ⟨[], st, att⟩
  | balls, st, att, fuel + 1 =>
    let p := fyShuffle balls st
    let chunks := redistribute ts p.1 tc
    if diversityMet chunks minC ∨ fuel = 0 then ⟨chunks, p.2, att + 1⟩
    else shuffleLoop tc ts minC p.1 p.2 (att + 1) fuel

/-- Main generator `createPuzzle` from `sort-puzzle-generator.ts`.
`fb` models the `Math.random()` draw used only when no seed is supplied. -/
def createPuzzle (cfg : GeneratorConfig) (fb : Nat) :
    Except String PuzzleResult :=
  if cfg.tubeSize ≤ 0 ∨ cfg.tubeCount ≤ 0 ∨ cfg.colorCount ≤ 0 then
    Except.error "Invalid config: tubeSize/tubeCount/colorCount must be > 0"
  else
    let seedUsed := makeSeedFrom cfg.seed fb
    match chooseDistribution cfg seedUsed with
    | Except.error e => Except.error e
    | Except.ok (dist, st1) =>
      let builtTubes := buildTubes cfg.tubeSize.toNat 0 dist
      if (builtTubes.length : Int) ≠ cfg.tubeCount then
        Except.error "Internal mismatch: tube array incorrect length"
      else
        let emptyN := (cfg.emptyTubeCount.getD 0).toNat
        let allBalls := builtTubes.flatten
        let minC := min 3 cfg.colorCount.toNat
        let r := shuffleLoop cfg.tubeCount.toNat cfg.tubeSize.toNat minC
          allBalls st1 0 100
        Except.ok ⟨r.tubes ++ List.replicate emptyN [], dist, seedUsed⟩

/-- Named ball colors from `GameConstants.ts`, in declaration order
(`Object.values(BallColor)` preserves it). -/
inductive BallColor where
  | brown | orange | lightPurple | gray | pink | purple
  | red | green | fluorescentGreen | blue | cyan | yellow
deriving DecidableEq

/-- Canonical ordered color list `BALL_COLORS`. -/
def BALL_COLORS : List BallColor :=
  [BallColor.brown, BallColor.orange, BallColor.lightPurple, BallColor.gray,
   BallColor.pink, BallColor.purple, BallColor.red, BallColor.green,
   BallColor.fluorescentGreen, BallColor.blue, BallColor.cyan,
   BallColor.yellow]

/-- `calculateColorDistribution` from `puzzle-adapter.ts`: even split of
`filledTubes` whole tubes over `colorCount` colors, first
`filledTubes % colorCount` colors getting one extra tube. -/
def calculateColorDistribution (colorCount filledTubes : Nat) : List Int :=
  ((List.range colorCount).map (fun i =>
    if i < filledTubes % colorCount then
      filledTubes / colorCount + 1 else filledTubes / colorCount)).map
    (Nat.cast : Nat → Int)

/-- `selectColors` from `puzzle-adapter.ts`: Fisher–Yates shuffle of
`BALL_COLORS` with an inline mulberry32 generator seeded by the numeric
seed the generator actually used, then take the first `colorCount`. -/
def selectColors (colorCount : Nat) (seed : Nat) : List BallColor :=
  (fyShuffle BALL_COLORS seed).1.take colorCount

/-- Parameters `generatePuzzleWithAdapter` derives from `difficulty` and
`emptyTubeCount` before invoking the generator. -/
structure AdapterParams where
  colorCount : Int
  actualEmptyTubes : Int
  filledTubes : Int
  actualColorCount : Int
  perColorTubes : List Int
deriving DecidableEq

/-- Derivation step of `generatePuzzleWithAdapter` (`puzzle-adapter.ts`,
step 1 and 2): clamp the inputs, fix the board at 14 tubes of capacity 8,
and split the filled tubes evenly over the colors. -/
def deriveAdapterParams (difficulty emptyTubeCount : Int) : AdapterParams :=
  let colorCount := min 12 (max 3 (difficulty + 2))
  let actualEmptyTubes := min 6 (max 1 emptyTubeCount)
  let filledTubes := 14 - actualEmptyTubes
  let actualColorCount := min colorCount filledTubes
  ⟨colorCount, actualEmptyTubes, filledTubes, actualColorCount,
    calculateColorDistribution actualColorCount.toNat filledTubes.toNat⟩

/-- Adapter output (`PuzzleAdapterResult` in the source). -/
structure PuzzleAdapterResult where
  tubes : List (List BallColor)
  seedUsed : Nat
  perColorTubes : List Int
  usedColors : List BallColor
deriving DecidableEq

/-- `generatePuzzleWithAdapter` from `puzzle-adapter.ts`: derive the
generator configuration, run `createPuzzle`, and map numeric color
indices to named colors via `selectColors` (note the source passes the
unclamped-by-tubes `colorCount` to `selectColors`, not
`actualColorCount`). The source's `shuffleSteps` derivation is omitted:
`createPuzzle` never reads it. -/
def generatePuzzleWithAdapter (difficulty emptyTubeCount : Int)
    (seed : Option SeedVal) (fb : Nat) :
    Except String PuzzleAdapterResult :=
  let p := deriveAdapterParams difficulty emptyTubeCount
  match createPuzzle ⟨p.actualColorCount, p.filledTubes, 8,
      some p.perColorTubes, seed, false, some p.actualEmptyTubes⟩ fb with
  | Except.error e => Except.error e
  | Except.ok res =>
    let usedColors := selectColors p.colorCount.toNat res.seedUsed
    Except.ok ⟨res.tubes.map (fun t =>
        t.map (fun ci => usedColors.getD ci BallColor.brown)),
      res.seedUsed, res.perColorTubes, usedColors⟩

/-- Distinct elements in first-occurrence order, mirroring the insertion
order of the JavaScript `Map` used by `validatePuzzle`. -/
def firstOccs [DecidableEq α] : List α → List α
  | [] => []
  | a :: l => a :: firstOccs (l.filter (fun x => x != a))
termination_by l => l.length
decreasing_by
  exact Nat.lt_succ_of_le (List.length_filter_le _ _)

/-- Error messages collected by `validatePuzzle`, abstracted to carry the
interpolated values instead of rendered Chinese strings. -/
inductive PuzzleError where
  | tubeCountErr : Nat → PuzzleError
  | tubeLenErr : Nat → PuzzleError
  | emptyCountErr : Nat → PuzzleError
  | colorCountErr : BallColor → Nat → PuzzleError
deriving DecidableEq

/-- Result record of `validatePuzzle`. -/
structure ValidationResult where
  valid : Bool
  errors : List PuzzleError
deriving DecidableEq

/-- `validatePuzzle` from `puzzle-adapter.ts`: board must have 14 tubes,
every tube length 0 or 8, exactly 2 empty tubes, and every color's total
over the full tubes a multiple of 8; errors are collected, never thrown. -/
def validatePuzzle (tubes : List (List BallColor)) : ValidationResult :=
  let capacity : Nat := 8
  let countErrs := if tubes.length ≠ 14 then
    [PuzzleError.tubeCountErr tubes.length] else []
  let lenErrs := (tubes.filter (fun t =>
      ¬(t.length = 0 ∨ t.length = capacity))).map (fun t =>
      PuzzleError.tubeLenErr t.length)
  let emptyCount := tubes.countP (fun t => t.isEmpty)
  let emptyErrs := if emptyCount ≠ 2 then
    [PuzzleError.emptyCountErr emptyCount] else []
  let fullBalls := (tubes.filter (fun t => t.length = capacity)).flatten
  let colorErrs := (firstOccs fullBalls).filterMap (fun c =>
    if fullBalls.count c % capacity ≠ 0 then
      some (PuzzleError.colorCountErr c (fullBalls.count c)) else none)
  let errors := countErrs ++ lenErrs ++ emptyErrs ++ colorErrs
  ⟨errors.isEmpty, errors⟩

/-- Module state of the puzzle cache in `AudioManager.ts`: the memoized
in-flight pregeneration promise (`_pregeneratePromise`), a counter
producing fresh promise identities, and the number of times the
pregeneration work has been triggered. -/
structure PuzzleCacheState where
  pregeneratePromise : Option Nat
  nextPromiseId : Nat
  triggerCount : Nat
deriving DecidableEq

/-- Initial module state: `_pregeneratePromise = null`, no work done. -/
def initCacheState : PuzzleCacheState := ⟨none, 0, 0⟩

/-- `pregeneratePuzzles`: unconditionally starts the pregeneration work
and stores the fresh in-flight promise in `_pregeneratePromise`. -/
def pregeneratePuzzles (s : PuzzleCacheState) : PuzzleCacheState :=
  ⟨some s.nextPromiseId, s.nextPromiseId + 1, s.triggerCount + 1⟩

/-- `waitForPregenerate`: return the memoized promise if one exists,
otherwise trigger `pregeneratePuzzles` once and return the promise it
stored. Calls are synchronous, hence serialized by the JS event loop. -/
def waitForPregenerate (s : PuzzleCacheState) : Nat × PuzzleCacheState :=
  match s.pregeneratePromise with
  | some p => (p, s)
  | none =>
    let s1 := pregeneratePuzzles s
    (s1.pregeneratePromise.getD 0, s1)

/-- Sequence of `n + 1` successive `waitForPregenerate` calls, returning
the last call's promise and the final state. -/
def iterWait : PuzzleCacheState → Nat → Nat × PuzzleCacheState
  | s, 0 => waitForPregenerate s
  | s, n + 1 => iterWait (waitForPregenerate s).2 n

/-- Discriminator for modelled thrown errors. -/
def isError {α : Type} : Except String α → Bool
  | Except.error _ => true
  | Except.ok _ => false

/-- Raise condition for `createPuzzle` exactly as the specification claims
it: invalid sizes, a supplied `perColorTubes` failing its three explicit
checks, or automatic distribution with too few tubes. -/
def claimRaisesB (cfg : GeneratorConfig) : Bool :=
  decide (cfg.tubeSize ≤ 0) || decide (cfg.tubeCount ≤ 0) ||
  decide (cfg.colorCount ≤ 0) ||
  (match cfg.perColorTubes with
   | some l =>
     decide ((l.length : Int) ≠ cfg.colorCount) ||
     decide (l.sum ≠ cfg.tubeCount) ||
     (!cfg.allowZeroTubesForColor && l.any (fun v => decide (v ≤ 0)))
   | none =>
     !cfg.allowZeroTubesForColor &&
       decide (cfg.tubeCount < cfg.colorCount))

/-- Amended raise condition: the specification misses that a supplied
`perColorTubes` containing a negative entry (possible only with
`allowZeroTubesForColor = true`) passes the explicit checks but then
trips the internal-mismatch error while building the solved state. -/
def raisesB (cfg : GeneratorConfig) : Bool :=
  claimRaisesB cfg ||
  (match cfg.perColorTubes with
   | some l =>
     cfg.allowZeroTubesForColor && l.any (fun v => decide (v < 0))
   | none => false)

/-! ## Basic bounds for the PRNG -/

theorem M32_pos : 0 < M32 := by decide

theorem xor_lt_M32 {a b : Nat} (ha : a < M32) (hb : b < M32) :
    a ^^^ b < M32 := by
  have h32 : M32 = 2 ^ 32 := by decide
  rw [h32] at ha hb ⊢
  exact Nat.xor_lt_two_pow ha hb

theorem rngNext_fst_lt (t : Nat) : (rngNext t).1 < M32 := by
  simp only [rngNext, imul32]
  have h1 : ∀ a : Nat, a % M32 < M32 := fun a => Nat.mod_lt _ M32_pos
  exact xor_lt_M32 (xor_lt_M32 (h1 _) (h1 _))
    (Nat.lt_of_le_of_lt (Nat.div_le_self _ _) (xor_lt_M32 (h1 _) (h1 _)))

theorem randInt_fst_lt {n : Nat} (hn : 0 < n) (st : Nat) :
    (randInt n st).1 < n := by
  unfold randInt
  simp only
  have hv : (rngNext st).1 < M32 := rngNext_fst_lt st
  have hlt : (rngNext st).1 * n < n * M32 := by
    calc (rngNext st).1 * n < M32 * n :=
          Nat.mul_lt_mul_of_lt_of_le hv (Nat.le_refl n) hn
      _ = n * M32 := Nat.mul_comm _ _
  exact (Nat.div_lt_iff_lt_mul M32_pos).2 hlt

theorem randInt_fst_le (n st : Nat) : (randInt (n + 1) st).1 ≤ n :=
  Nat.lt_succ_iff.1 (randInt_fst_lt (Nat.succ_pos n) st)

/-! ## Permutation facts for the Fisher–Yates shuffle -/

theorem cons_get_set_perm :
    ∀ (l : List α) (k : Nat) (a : α) (hk : k < l.length),
      List.Perm (l[k] :: l.set k a) (a :: l)
  | b :: l, 0, a, _ => by
    simpa using List.Perm.swap a b l
  | b :: l, k + 1, a, hk => by
    have hk' : k < l.length := Nat.lt_of_succ_lt_succ hk
    have ih := cons_get_set_perm l k a hk'
    simp only [List.getElem_cons_succ, List.set_cons_succ]
    exact List.Perm.trans (List.Perm.swap b _ _)
      (List.Perm.trans (List.Perm.cons b ih) (List.Perm.swap a b l))

theorem listSwap_perm (l : List α) (i j : Nat) :
    List.Perm (listSwap l i j) l := by
  unfold listSwap
  cases hi : l[i]? with
  | none => exact List.Perm.refl l
  | some vi =>
    cases hj : l[j]? with
    | none => exact List.Perm.refl l
    | some vj =>
      obtain ⟨hilt, hig⟩ := List.getElem?_eq_some_iff.1 hi
      obtain ⟨hjlt, hjg⟩ := List.getElem?_eq_some_iff.1 hj
      have hjlt1 : j < (l.set i vj).length := by
        simpa [List.length_set] using hjlt
      have hget1 : (l.set i vj)[j] = vj := by
        by_cases hij : i = j
        · subst hij
          exact List.getElem_set_self hjlt1
        · rw [List.getElem_set_ne hij hjlt1, hjg]
      have h1 : List.Perm (vj :: (l.set i vj).set j vi) (vi :: l.set i vj) := by
        have hp := cons_get_set_perm (l.set i vj) j vi hjlt1
        rwa [hget1] at hp
      have h2 : List.Perm (vi :: l.set i vj) (vj :: l) := by
        have hp := cons_get_set_perm l i vj hilt
        rwa [hig] at hp
      exact (List.Perm.trans h1 h2).cons_inv

theorem fyGo_perm :
    ∀ (i : Nat) (l : List α) (st : Nat), List.Perm (fyGo l st i).1 l
  | 0, l, st => List.Perm.refl l
  | i + 1, l, st => by
    unfold fyGo
    exact List.Perm.trans
      (fyGo_perm i (listSwap l (i + 1) (randInt (i + 2) st).1) _)
      (listSwap_perm l _ _)

theorem fyShuffle_perm (l : List α) (st : Nat) :
    List.Perm (fyShuffle l st).1 l :=
  fyGo_perm _ l st

theorem fyShuffle_length (l : List α) (st : Nat) :
    (fyShuffle l st).1.length = l.length :=
  (fyShuffle_perm l st).length_eq

theorem fyShuffle_sum (l : List Nat) (st : Nat) :
    (fyShuffle l st).1.sum = l.sum :=
  (fyShuffle_perm l st).sum_eq

/-! ## Distribution planner invariants -/

theorem incrAt_length (l : List Nat) (i : Nat) :
    (incrAt l i).length = l.length := by
  simp [incrAt]

theorem incrAt_sum :
    ∀ (l : List Nat) (i : Nat), i < l.length →
      (incrAt l i).sum = l.sum + 1
  | a :: l, 0, _ => by
    simp [incrAt]
    omega
  | a :: l, i + 1, h => by
    have h' : i < l.length := Nat.lt_of_succ_lt_succ h
    have ih := incrAt_sum l i h'
    simp only [incrAt, List.getD_cons_succ, List.set_cons_succ,
      List.sum_cons] at *
    omega

theorem autoDistribLoop_zero (cc : Nat) (l : List Nat) (st : Nat) :
    autoDistribLoop cc l st 0 = (l, st) := rfl

theorem autoDistribLoop_succ (cc r : Nat) (l : List Nat) (st : Nat) :
    autoDistribLoop cc l st (r + 1) =
      autoDistribLoop cc (incrAt l (randInt cc st).1) (randInt cc st).2 r := rfl

theorem autoDistribLoop_spec (cc : Nat) (hcc : 0 < cc) :
    ∀ (r : Nat) (l : List Nat) (st : Nat), l.length = cc →
      (autoDistribLoop cc l st r).1.length = cc ∧
      (autoDistribLoop cc l st r).1.sum = l.sum + r ∧
      ((∀ x ∈ l, 1 ≤ x) → ∀ x ∈ (autoDistribLoop cc l st r).1, 1 ≤ x) := by
  intro r
  induction r with
  | zero =>
    intro l st hl
    rw [autoDistribLoop_zero]
    exact ⟨hl, by simp, fun h => h⟩
  | succ r ih =>
    intro l st hl
    rw [autoDistribLoop_succ]
    have hidx : (randInt cc st).1 < l.length := by
      rw [hl]; exact randInt_fst_lt hcc st
    have hlen : (incrAt l (randInt cc st).1).length = cc := by
      rw [incrAt_length, hl]
    obtain ⟨h1, h2, h3⟩ := ih (incrAt l (randInt cc st).1) (randInt cc st).2 hlen
    refine ⟨h1, ?_, ?_⟩
    · rw [h2, incrAt_sum l _ hidx]
      omega
    · intro hall
      refine h3 ?_
      intro y hy
      rw [incrAt] at hy
      rcases List.mem_or_eq_of_mem_set hy with h | h
      · exact hall y h
      · omega

theorem partLoop_zero (rem st : Nat) : partLoop rem st 0 = ([], rem, st) := rfl

theorem partLoop_succ (k rem st : Nat) :
    partLoop rem st (k + 1) =
      ((randInt (rem + 1) st).1 ::
          (partLoop (rem - (randInt (rem + 1) st).1) (randInt (rem + 1) st).2 k).1,
        (partLoop (rem - (randInt (rem + 1) st).1) (randInt (rem + 1) st).2 k).2.1,
        (partLoop (rem - (randInt (rem + 1) st).1) (randInt (rem + 1) st).2 k).2.2) := rfl

theorem partLoop_spec :
    ∀ (k rem st : Nat),
      (partLoop rem st k).1.length = k ∧
      (partLoop rem st k).1.sum + (partLoop rem st k).2.1 = rem := by
  intro k
  induction k with
  | zero =>
    intro rem st
    rw [partLoop_zero]
    simp
  | succ k ih =>
    intro rem st
    have hle : (randInt (rem + 1) st).1 ≤ rem := randInt_fst_le rem st
    obtain ⟨h1, h2⟩ := ih (rem - (randInt (rem + 1) st).1)
      (randInt (rem + 1) st).2
    rw [partLoop_succ]
    simp only [List.length_cons, List.sum_cons]
    exact ⟨by rw [h1], by omega⟩

theorem autoDistributeTubes_ok {cc tc st : Nat} {az : Bool}
    {d : List Nat} {st1 : Nat} (hcc : 0 < cc)
    (h : autoDistributeTubes cc tc st az = Except.ok (d, st1)) :
    d.length = cc ∧ d.sum = tc ∧ (az = false → ∀ x ∈ d, 1 ≤ x) := by
  unfold autoDistributeTubes at h
  split at h
  · exact absurd h (by simp)
  · rename_i hno
    split at h
    · rename_i haz
      simp only [Except.ok.injEq] at h
      have hd : (autoDistribLoop cc (List.replicate cc 1) st (tc - cc)).1 = d := by
        rw [h]
      have hcle : cc ≤ tc := by
        rcases Nat.lt_or_ge tc cc with hlt | hge
        · exact absurd ⟨haz, hlt⟩ hno
        · exact hge
      have hspec := autoDistribLoop_spec cc hcc (tc - cc)
        (List.replicate cc 1) st (by simp)
      refine ⟨hd ▸ hspec.1, ?_, fun _ => hd ▸ hspec.2.2 (by simp)⟩
      rw [← hd, hspec.2.1, List.sum_replicate]
      simp only [smul_eq_mul, Nat.mul_one]
      omega
    · rename_i haz
      simp only [Except.ok.injEq] at h
      have hd : (fyShuffle ((partLoop tc st (cc - 1)).1 ++
          [(partLoop tc st (cc - 1)).2.1]) (partLoop tc st (cc - 1)).2.2).1 = d := by
        rw [h]
      have hp := partLoop_spec (cc - 1) tc st
      have hperm := fyShuffle_perm
        ((partLoop tc st (cc - 1)).1 ++ [(partLoop tc st (cc - 1)).2.1])
        (partLoop tc st (cc - 1)).2.2
      refine ⟨?_, ?_, ?_⟩
      · rw [← hd, hperm.length_eq, List.length_append, hp.1]
        simp only [List.length_cons, List.length_nil]
        omega
      · rw [← hd, hperm.sum_eq, List.sum_append, List.sum_cons, List.sum_nil]
        omega
      · intro hfalse
        exact absurd hfalse haz

/-! ## Solved-state construction -/

theorem buildTubes_nil (ts c0 : Nat) : buildTubes ts c0 [] = [] := rfl

theorem buildTubes_cons (ts c0 : Nat) (d : Int) (rest : List Int) :
    buildTubes ts c0 (d :: rest) =
      List.replicate d.toNat (List.replicate ts c0) ++
        buildTubes ts (c0 + 1) rest := rfl

theorem buildTubes_length (ts : Nat) :
    ∀ (d : List Int) (c0 : Nat),
      (buildTubes ts c0 d).length = (d.map Int.toNat).sum := by
  intro d
  induction d with
  | nil => intro c0; simp [buildTubes_nil]
  | cons x rest ih =>
    intro c0
    rw [buildTubes_cons, List.length_append, List.length_replicate, ih]
    simp

theorem count_flatten_replicate (x c n ts : Nat) :
    (List.replicate n (List.replicate ts c)).flatten.count x =
      if c = x then n * ts else 0 := by
  induction n with
  | zero => simp
  | succ n ih =>
    rw [List.replicate_succ, List.flatten_cons, List.count_append, ih,
      List.count_replicate]
    by_cases hcx : c = x
    · simp [hcx, Nat.succ_mul, Nat.add_comm]
    · simp [hcx, fun h => hcx (by exact h)]

theorem buildTubes_flatten_count (ts : Nat) :
    ∀ (d : List Int) (c0 x : Nat),
      (buildTubes ts c0 d).flatten.count x =
        (if c0 ≤ x then (d.getD (x - c0) 0).toNat else 0) * ts := by
  intro d
  induction d with
  | nil =>
    intro c0 x
    simp [buildTubes_nil]
  | cons y rest ih =>
    intro c0 x
    rw [buildTubes_cons, List.flatten_append, List.count_append,
      count_flatten_replicate, ih (c0 + 1) x]
    rcases Nat.lt_trichotomy x c0 with hlt | heq | hgt
    · have h1 : c0 ≠ x := by omega
      have h2 : ¬(c0 ≤ x) := by omega
      have h3 : ¬(c0 + 1 ≤ x) := by omega
      simp [h1, h2, h3]
    · subst heq
      have h3 : ¬(x + 1 ≤ x) := by omega
      simp [h3, Nat.sub_self]
    · have h1 : c0 ≠ x := by omega
      have h2 : c0 ≤ x := by omega
      have h3 : c0 + 1 ≤ x := by omega
      have h4 : x - c0 = (x - (c0 + 1)) + 1 := by omega
      simp [h1, h2, h3, h4]

theorem buildTubes_flatten_length (ts : Nat) :
    ∀ (d : List Int) (c0 : Nat),
      (buildTubes ts c0 d).flatten.length = (d.map Int.toNat).sum * ts := by
  intro d
  induction d with
  | nil => intro c0; simp [buildTubes_nil]
  | cons y rest ih =>
    intro c0
    rw [buildTubes_cons, List.flatten_append, List.length_append, ih]
    simp [Nat.add_mul]

/-! ## Integer versus natural sums of the distribution -/

theorem sum_toNat_ge : ∀ (d : List Int), d.sum ≤ ((d.map Int.toNat).sum : Int)
  | [] => le_refl 0
  | a :: d => by
    simp only [List.sum_cons, List.map_cons, Nat.cast_add]
    exact add_le_add (Int.self_le_toNat a) (sum_toNat_ge d)

theorem sum_toNat_eq_iff :
    ∀ (d : List Int),
      (((d.map Int.toNat).sum : Int) = d.sum) ↔ ∀ v ∈ d, 0 ≤ v
  | [] => by simp
  | a :: d => by
    simp only [List.sum_cons, List.map_cons, List.mem_cons, Nat.cast_add]
    constructor
    · intro h
      have h1 : a ≤ (a.toNat : Int) := Int.self_le_toNat a
      have h2 : d.sum ≤ ((d.map Int.toNat).sum : Int) := sum_toNat_ge d
      have ha : (a.toNat : Int) = a := by omega
      have hd : ((d.map Int.toNat).sum : Int) = d.sum := by omega
      intro v hv
      rcases hv with hv | hv
      · subst hv
        rw [← ha]
        exact Int.natCast_nonneg _
      · exact ((sum_toNat_eq_iff d).1 hd) v hv
    · intro h
      have ha : (a.toNat : Int) = a := Int.toNat_of_nonneg (h a (Or.inl rfl))
      have hd : ((d.map Int.toNat).sum : Int) = d.sum :=
        (sum_toNat_eq_iff d).2 (fun v hv => h v (Or.inr hv))
      omega

/-! ## Redistribution of the shuffled balls -/

theorem redistribute_zero (ts : Nat) (l : List Nat) :
    redistribute ts l 0 = [] := rfl

theorem redistribute_succ (ts t : Nat) (l : List Nat) :
    redistribute ts l (t + 1) =
      l.take ts :: redistribute ts (l.drop ts) t := rfl

theorem redistribute_length (ts : Nat) :
    ∀ (tc : Nat) (l : List Nat), (redistribute ts l tc).length = tc := by
  intro tc
  induction tc with
  | zero => intro l; rfl
  | succ tc ih =>
    intro l
    rw [redistribute_succ, List.length_cons, ih]

theorem redistribute_map_length (ts : Nat) :
    ∀ (tc : Nat) (l : List Nat), l.length = tc * ts →
      (redistribute ts l tc).map List.length = List.replicate tc ts := by
  intro tc
  induction tc with
  | zero => intro l _; rfl
  | succ tc ih =>
    intro l hl
    rw [Nat.succ_mul] at hl
    have hts : ts ≤ l.length := by omega
    have hdrop : (l.drop ts).length = tc * ts := by
      rw [List.length_drop]
      omega
    rw [redistribute_succ, List.map_cons, ih (l.drop ts) hdrop,
      List.length_take, List.replicate_succ, Nat.min_eq_left hts]

theorem redistribute_flatten (ts : Nat) :
    ∀ (tc : Nat) (l : List Nat), l.length = tc * ts →
      (redistribute ts l tc).flatten = l := by
  intro tc
  induction tc with
  | zero =>
    intro l hl
    rw [redistribute_zero, List.flatten_nil]
    exact (List.eq_nil_of_length_eq_zero (by omega)).symm
  | succ tc ih =>
    intro l hl
    rw [Nat.succ_mul] at hl
    have hdrop : (l.drop ts).length = tc * ts := by
      rw [List.length_drop]
      omega
    rw [redistribute_succ, List.flatten_cons, ih (l.drop ts) hdrop,
      List.take_append_drop]

/-! ## Bounded shuffle-retry loop -/

theorem shuffleLoop_zero (tc ts minC : Nat) (balls : List Nat) (st att : Nat) :
    shuffleLoop tc ts minC balls st att 0 = ⟨[], st, att⟩ := rfl

theorem shuffleLoop_succ (tc ts minC fuel : Nat) (balls : List Nat)
    (st att : Nat) :
    shuffleLoop tc ts minC balls st att (fuel + 1) =
      if diversityMet (redistribute ts (fyShuffle balls st).1 tc) minC ∨
          fuel = 0 then
        ⟨redistribute ts (fyShuffle balls st).1 tc, (fyShuffle balls st).2,
          att + 1⟩
      else
        shuffleLoop tc ts minC (fyShuffle balls st).1 (fyShuffle balls st).2
          (att + 1) fuel := rfl

theorem shuffleLoop_spec (tc ts minC : Nat) :
    ∀ (fuel : Nat) (balls : List Nat) (st att : Nat), 0 < fuel →
      (∃ b2, List.Perm b2 balls ∧
        (shuffleLoop tc ts minC balls st att fuel).tubes =
          redistribute ts b2 tc) ∧
      att + 1 ≤ (shuffleLoop tc ts minC balls st att fuel).attempts ∧
      (shuffleLoop tc ts minC balls st att fuel).attempts ≤ att + fuel ∧
      (diversityMet (shuffleLoop tc ts minC balls st att fuel).tubes minC =
          true ∨
        (shuffleLoop tc ts minC balls st att fuel).attempts = att + fuel) := by
  intro fuel
  induction fuel with
  | zero =>
    intro _ _ _ h
    exact absurd h (by omega)
  | succ fuel ih =>
    intro balls st att _
    rw [shuffleLoop_succ]
    by_cases hcond :
        diversityMet (redistribute ts (fyShuffle balls st).1 tc) minC ∨
          fuel = 0
    · rw [if_pos hcond]
      refine ⟨⟨(fyShuffle balls st).1, fyShuffle_perm balls st, rfl⟩,
        ?_, ?_, ?_⟩
      · show att + 1 ≤ att + 1
        omega
      · show att + 1 ≤ att + (fuel + 1)
        omega
      · rcases hcond with hdiv | hf
        · exact Or.inl hdiv
        · subst hf
          exact Or.inr rfl
    · rw [if_neg hcond]
      push_neg at hcond
      obtain ⟨hdiv, hf⟩ := hcond
      have hfpos : 0 < fuel := Nat.pos_of_ne_zero hf
      obtain ⟨⟨b2, hperm, htubes⟩, h1, h2, h3⟩ :=
        ih (fyShuffle balls st).1 (fyShuffle balls st).2 (att + 1) hfpos
      refine ⟨⟨b2, hperm.trans (fyShuffle_perm balls st), htubes⟩,
        by omega, by omega, ?_⟩
      rcases h3 with h | h
      · exact Or.inl h
      · exact Or.inr (by omega)

/-! ## Unfolding createPuzzle -/

theorem createPuzzle_bad {cfg : GeneratorConfig} (fb : Nat)
    (h : cfg.tubeSize ≤ 0 ∨ cfg.tubeCount ≤ 0 ∨ cfg.colorCount ≤ 0) :
    createPuzzle cfg fb =
      Except.error
        "Invalid config: tubeSize/tubeCount/colorCount must be > 0" := by
  rw [createPuzzle, if_pos h]

theorem createPuzzle_good {cfg : GeneratorConfig} (fb : Nat)
    (h : ¬(cfg.tubeSize ≤ 0 ∨ cfg.tubeCount ≤ 0 ∨ cfg.colorCount ≤ 0)) :
    createPuzzle cfg fb =
      match chooseDistribution cfg (makeSeedFrom cfg.seed fb) with
      | Except.error e => Except.error e
      | Except.ok (dist, st1) =>
        if ((buildTubes cfg.tubeSize.toNat 0 dist).length : Int) ≠
            cfg.tubeCount then
          Except.error "Internal mismatch: tube array incorrect length"
        else
          Except.ok ⟨(shuffleLoop cfg.tubeCount.toNat cfg.tubeSize.toNat
              (min 3 cfg.colorCount.toNat)
              (buildTubes cfg.tubeSize.toNat 0 dist).flatten st1 0
              100).tubes ++
            List.replicate (cfg.emptyTubeCount.getD 0).toNat [],
            dist, makeSeedFrom cfg.seed fb⟩ := by
  rw [createPuzzle, if_neg h]

/-! ## Outcomes of the distribution step -/

theorem chooseDistribution_ok {cfg : GeneratorConfig} {st st1 : Nat}
    {dist : List Int}
    (hcc : 0 < cfg.colorCount) (htc : 0 < cfg.tubeCount)
    (h : chooseDistribution cfg st = Except.ok (dist, st1)) :
    dist.sum = cfg.tubeCount ∧ (dist.length : Int) = cfg.colorCount ∧
      (cfg.allowZeroTubesForColor = false → ∀ v ∈ dist, 1 ≤ v) := by
  unfold chooseDistribution at h
  cases hp : cfg.perColorTubes with
  | some l =>
    rw [hp] at h
    dsimp only at h
    split at h
    · exact absurd h (by simp)
    · split at h
      · exact absurd h (by simp)
      · split at h
        · exact absurd h (by simp)
        · rename_i h1 h2 h3
          simp only [Except.ok.injEq, Prod.mk.injEq] at h
          obtain ⟨hl, -⟩ := h
          subst hl
          refine ⟨by omega, by omega, ?_⟩
          intro haz v hv
          by_contra hneg
          exact h3 ⟨haz, List.any_eq_true.2 ⟨v, hv, by
            simp only [decide_eq_true_eq]
            omega⟩⟩
  | none =>
    rw [hp] at h
    dsimp only at h
    cases ha : autoDistributeTubes cfg.colorCount.toNat cfg.tubeCount.toNat
        st cfg.allowZeroTubesForColor with
    | error e =>
      rw [ha] at h
      exact absurd h (by simp)
    | ok p =>
      obtain ⟨dnat, stn⟩ := p
      rw [ha] at h
      simp only [Except.ok.injEq, Prod.mk.injEq] at h
      obtain ⟨hd, -⟩ := h
      have hccn : 0 < cfg.colorCount.toNat := by omega
      obtain ⟨hlen, hsum, hmem⟩ := autoDistributeTubes_ok hccn ha
      refine ⟨?_, ?_, ?_⟩
      · rw [← hd, ← Nat.cast_list_sum, hsum]
        omega
      · rw [← hd, List.length_map, hlen]
        omega
      · intro haz v hv
        rw [← hd] at hv
        rcases List.mem_map.1 hv with ⟨x, hx, rfl⟩
        have := hmem haz x hx
        omega

theorem chooseDistribution_error_iff {cfg : GeneratorConfig} {st : Nat}
    (hcc : 0 < cfg.colorCount) (htc : 0 < cfg.tubeCount) :
    isError (chooseDistribution cfg st) = true ↔
      (match cfg.perColorTubes with
       | some l =>
         ((l.length : Int) ≠ cfg.colorCount ∨ l.sum ≠ cfg.tubeCount ∨
           (cfg.allowZeroTubesForColor = false ∧ ∃ v ∈ l, v ≤ 0))
       | none =>
         cfg.allowZeroTubesForColor = false ∧
           cfg.tubeCount < cfg.colorCount) := by
  unfold chooseDistribution
  cases hp : cfg.perColorTubes with
  | some l =>
    dsimp only
    split
    · rename_i h1
      simp only [isError]
      exact ⟨fun _ => Or.inl h1, fun _ => by trivial⟩
    · split
      · rename_i h1 h2
        simp only [isError]
        exact ⟨fun _ => Or.inr (Or.inl h2), fun _ => by trivial⟩
      · split
        · rename_i h1 h2 h3
          simp only [isError]
          refine ⟨fun _ => Or.inr (Or.inr ⟨h3.1, ?_⟩), fun _ => by trivial⟩
          rcases List.any_eq_true.1 h3.2 with ⟨v, hv, hdec⟩
          exact ⟨v, hv, by
            simp only [decide_eq_true_eq] at hdec
            exact hdec⟩
        · rename_i h1 h2 h3
          simp only [isError]
          constructor
          · intro hfalse
            exact absurd hfalse (by simp)
          · intro hcond
            rcases hcond with hc | hc | hc
            · exact absurd hc h1
            · exact absurd hc h2
            · refine absurd ?_ h3
              refine ⟨hc.1, ?_⟩
              rcases hc.2 with ⟨v, hv, hvle⟩
              exact List.any_eq_true.2 ⟨v, hv, by
                simp only [decide_eq_true_eq]
                exact hvle⟩
  | none =>
    dsimp only
    constructor
    · intro herr
      cases ha : autoDistributeTubes cfg.colorCount.toNat
          cfg.tubeCount.toNat st cfg.allowZeroTubesForColor with
      | error e =>
        unfold autoDistributeTubes at ha
        split at ha
        · rename_i hcond
          exact ⟨hcond.1, by omega⟩
        · split at ha
          · exact absurd ha (by simp)
          · exact absurd ha (by simp)
      | ok p =>
        rw [ha] at herr
        exact absurd herr (by simp [isError])
    · intro hc
      have ha : autoDistributeTubes cfg.colorCount.toNat
          cfg.tubeCount.toNat st cfg.allowZeroTubesForColor =
          Except.error
            "tubeCount < colorCount but allowZeroTubesForColor=false" := by
        unfold autoDistributeTubes
        rw [if_pos ⟨hc.1, by omega⟩]
      rw [ha]
      simp [isError]

theorem chooseDistribution_ok_some {cfg : GeneratorConfig}
    {st st1 : Nat} {dist l : List Int}
    (hp : cfg.perColorTubes = some l)
    (h : chooseDistribution cfg st = Except.ok (dist, st1)) : dist = l := by
  unfold chooseDistribution at h
  rw [hp] at h
  dsimp only at h
  split at h
  · exact absurd h (by simp)
  · split at h
    · exact absurd h (by simp)
    · split at h
      · exact absurd h (by simp)
      · simp only [Except.ok.injEq, Prod.mk.injEq] at h
        exact h.1.symm

theorem chooseDistribution_ok_none {cfg : GeneratorConfig}
    {st st1 : Nat} {dist : List Int}
    (hp : cfg.perColorTubes = none)
    (h : chooseDistribution cfg st = Except.ok (dist, st1)) :
    ∀ v ∈ dist, 0 ≤ v := by
  unfold chooseDistribution at h
  rw [hp] at h
  dsimp only at h
  cases ha : autoDistributeTubes cfg.colorCount.toNat cfg.tubeCount.toNat
      st cfg.allowZeroTubesForColor with
  | error e =>
    rw [ha] at h
    exact absurd h (by simp)
  | ok p =>
    rw [ha] at h
    simp only [Except.ok.injEq, Prod.mk.injEq] at h
    intro v hv
    rw [← h.1] at hv
    rcases List.mem_map.1 hv with ⟨x, -, rfl⟩
    exact Int.natCast_nonneg x

theorem mismatch_iff_neg (ts : Nat) {dist : List Int} {tc : Int}
    (hsum : dist.sum = tc) :
    (((buildTubes ts 0 dist).length : Int) ≠ tc) ↔ ∃ v ∈ dist, v < 0 := by
  rw [buildTubes_length ts dist 0]
  constructor
  · intro h
    by_contra hno
    push_neg at hno
    refine h ?_
    rw [← hsum]
    exact (sum_toNat_eq_iff dist).2 hno
  · rintro ⟨v, hv, hvneg⟩ heq
    have hall : ∀ u ∈ dist, 0 ≤ u := (sum_toNat_eq_iff dist).1 (by
      rw [heq, ← hsum])
    exact absurd (hall v hv) (by omega)

theorem createPuzzle_isError_eq (cfg : GeneratorConfig) (fb : Nat) :
    isError (createPuzzle cfg fb) = raisesB cfg := by
  by_cases hbad : cfg.tubeSize ≤ 0 ∨ cfg.tubeCount ≤ 0 ∨ cfg.colorCount ≤ 0
  · rw [createPuzzle_bad fb hbad]
    have hclaim : claimRaisesB cfg = true := by
      unfold claimRaisesB
      rcases hbad with h | h | h <;> simp [h]
    simp [isError, raisesB, hclaim]
  · have hgood := createPuzzle_good fb hbad
    push_neg at hbad
    obtain ⟨hts, htc, hcc⟩ := hbad
    rw [hgood]
    cases hcd : chooseDistribution cfg (makeSeedFrom cfg.seed fb) with
    | error e =>
      have herr :
          isError (chooseDistribution cfg (makeSeedFrom cfg.seed fb)) =
            true := by
        rw [hcd]
        rfl
      have hcond := (chooseDistribution_error_iff hcc htc).1 herr
      cases hp : cfg.perColorTubes with
      | some l =>
        rw [hp] at hcond
        unfold raisesB claimRaisesB
        rw [hp]
        rcases hcond with h | h | h
        · simp [isError, decide_eq_true h]
        · simp [isError, decide_eq_true h]
        · have hany : l.any (fun v => decide (v ≤ 0)) = true := by
            rcases h.2 with ⟨v, hv, hvle⟩
            exact List.any_eq_true.2 ⟨v, hv, decide_eq_true hvle⟩
          simp [isError, h.1, hany]
      | none =>
        rw [hp] at hcond
        unfold raisesB claimRaisesB
        rw [hp]
        simp [isError, hcond.1, decide_eq_true hcond.2]
    | ok p =>
      obtain ⟨dist, st1⟩ := p
      obtain ⟨hsum, hlen, hposv⟩ := chooseDistribution_ok hcc htc hcd
      dsimp only
      by_cases hm : ((buildTubes cfg.tubeSize.toNat 0 dist).length : Int) ≠
          cfg.tubeCount
      · rw [if_pos hm]
        obtain ⟨v, hv, hvneg⟩ := (mismatch_iff_neg _ hsum).1 hm
        cases hp : cfg.perColorTubes with
        | none =>
          have := chooseDistribution_ok_none hp hcd v hv
          omega
        | some l =>
          have hdl : dist = l := chooseDistribution_ok_some hp hcd
          subst hdl
          have haz : cfg.allowZeroTubesForColor = true := by
            rcases Bool.eq_false_or_eq_true cfg.allowZeroTubesForColor
                with hb | hb
            · exact hb
            · have := hposv hb v hv
              omega
          unfold raisesB claimRaisesB
          rw [hp]
          have hany : dist.any (fun v => decide (v < 0)) = true :=
            List.any_eq_true.2 ⟨v, hv, decide_eq_true hvneg⟩
          simp [isError, haz, hany]
      · rw [if_neg hm]
        have hnoneg : ∀ v ∈ dist, 0 ≤ v := by
          intro v hv
          by_contra hneg
          exact hm ((mismatch_iff_neg _ hsum).2 ⟨v, hv, by omega⟩)
        cases hp : cfg.perColorTubes with
        | some l =>
          have hdl : dist = l := chooseDistribution_ok_some hp hcd
          subst hdl
          unfold raisesB claimRaisesB
          rw [hp]
          have hany2 : dist.any (fun v => decide (v < 0)) = false := by
            rw [List.any_eq_false]
            intro v hv
            simp only [decide_eq_true_eq]
            have := hnoneg v hv
            omega
          have h1 : decide ((dist.length : Int) ≠ cfg.colorCount) = false :=
            by simp [hlen]
          have h2 : decide (dist.sum ≠ cfg.tubeCount) = false := by
            simp [hsum]
          by_cases haz : cfg.allowZeroTubesForColor = true
          · simp [isError, haz, hany2, h1, h2, hts, htc, hcc,
              Int.not_le.2 hts, Int.not_le.2 htc, Int.not_le.2 hcc]
          · have haz' : cfg.allowZeroTubesForColor = false :=
              Bool.not_eq_true _ ▸ Bool.eq_false_iff.2 (fun hc => haz hc)
            have hany3 : dist.any (fun v => decide (v ≤ 0)) = false := by
              rw [List.any_eq_false]
              intro v hv
              simp only [decide_eq_true_eq]
              have := hposv haz' v hv
              omega
            simp [isError, haz', hany2, hany3, h1, h2,
              Int.not_le.2 hts, Int.not_le.2 htc, Int.not_le.2 hcc]
        | none =>
          have hnoerr :
              isError (chooseDistribution cfg (makeSeedFrom cfg.seed fb)) =
                false := by
            rw [hcd]
            rfl
          have hnocond : ¬(cfg.allowZeroTubesForColor = false ∧
              cfg.tubeCount < cfg.colorCount) := by
            intro hc
            have := (@chooseDistribution_error_iff cfg
              (makeSeedFrom cfg.seed fb) hcc htc).2 (by
                rw [hp]
                exact hc)
            rw [hnoerr] at this
            exact Bool.noConfusion this
          unfold raisesB claimRaisesB
          rw [hp]
          by_cases haz : cfg.allowZeroTubesForColor = true
          · simp [isError, haz, Int.not_le.2 hts, Int.not_le.2 htc,
              Int.not_le.2 hcc]
          · have haz' : cfg.allowZeroTubesForColor = false :=
              Bool.eq_false_iff.2 (fun hc => haz hc)
            have hnlt : ¬(cfg.tubeCount < cfg.colorCount) := fun hlt =>
              hnocond ⟨haz', hlt⟩
            simp [isError, haz', hnlt, Int.not_le.2 hts, Int.not_le.2 htc,
              Int.not_le.2 hcc]

theorem isError_false_ok {α : Type} {x : Except String α}
    (h : isError x = false) : ∃ r, x = Except.ok r := by
  cases x with
  | error e => exact absurd h (by simp [isError])
  | ok r => exact ⟨r, rfl⟩

theorem createPuzzle_ok_inv {cfg : GeneratorConfig} {fb : Nat}
    {res : PuzzleResult} (h : createPuzzle cfg fb = Except.ok res) :
    0 < cfg.tubeSize ∧ 0 < cfg.tubeCount ∧ 0 < cfg.colorCount ∧
    ∃ dist st1,
      chooseDistribution cfg (makeSeedFrom cfg.seed fb) =
        Except.ok (dist, st1) ∧
      ((buildTubes cfg.tubeSize.toNat 0 dist).length : Int) =
        cfg.tubeCount ∧
      res.perColorTubes = dist ∧
      res.seedUsed = makeSeedFrom cfg.seed fb ∧
      res.tubes =
        (shuffleLoop cfg.tubeCount.toNat cfg.tubeSize.toNat
            (min 3 cfg.colorCount.toNat)
            (buildTubes cfg.tubeSize.toNat 0 dist).flatten st1 0
            100).tubes ++
          List.replicate (cfg.emptyTubeCount.getD 0).toNat [] := by
  by_cases hbad : cfg.tubeSize ≤ 0 ∨ cfg.tubeCount ≤ 0 ∨ cfg.colorCount ≤ 0
  · rw [createPuzzle_bad fb hbad] at h
    exact absurd h (by simp)
  · have hgood := createPuzzle_good fb hbad
    push_neg at hbad
    obtain ⟨hts, htc, hcc⟩ := hbad
    rw [hgood] at h
    cases hcd : chooseDistribution cfg (makeSeedFrom cfg.seed fb) with
    | error e =>
      rw [hcd] at h
      exact absurd h (by simp)
    | ok p =>
      obtain ⟨dist, st1⟩ := p
      rw [hcd] at h
      dsimp only at h
      split at h
      · exact absurd h (by simp)
      · rename_i hnm
        simp only [Except.ok.injEq] at h
        refine ⟨hts, htc, hcc, dist, st1, rfl, by omega, ?_, ?_, ?_⟩
        · rw [← h]
        · rw [← h]
        · rw [← h]

theorem createPuzzle_ok_shape {cfg : GeneratorConfig} {fb : Nat}
    {res : PuzzleResult} (h : createPuzzle cfg fb = Except.ok res) :
    res.tubes.map List.length =
      List.replicate cfg.tubeCount.toNat cfg.tubeSize.toNat ++
        List.replicate (cfg.emptyTubeCount.getD 0).toNat 0 ∧
    (∀ c : Nat, res.tubes.flatten.count c =
      (res.perColorTubes.getD c 0).toNat * cfg.tubeSize.toNat) ∧
    res.perColorTubes.sum = cfg.tubeCount := by
  obtain ⟨hts, htc, hcc, dist, st1, hcd, hnm, hpc, hseed, htubes⟩ :=
    createPuzzle_ok_inv h
  obtain ⟨hsum, hlen, -⟩ := chooseDistribution_ok hcc htc hcd
  have hballs : (buildTubes cfg.tubeSize.toNat 0 dist).flatten.length =
      cfg.tubeCount.toNat * cfg.tubeSize.toNat := by
    rw [buildTubes_flatten_length]
    have hbl := buildTubes_length cfg.tubeSize.toNat dist 0
    have : (dist.map Int.toNat).sum = cfg.tubeCount.toNat := by omega
    rw [this]
  obtain ⟨⟨b2, hperm, hloop⟩, -, -, -⟩ :=
    shuffleLoop_spec cfg.tubeCount.toNat cfg.tubeSize.toNat
      (min 3 cfg.colorCount.toNat) 100
      (buildTubes cfg.tubeSize.toNat 0 dist).flatten st1 0 (by omega)
  have hb2len : b2.length = cfg.tubeCount.toNat * cfg.tubeSize.toNat := by
    rw [hperm.length_eq, hballs]
  refine ⟨?_, ?_, by rw [hpc, hsum]⟩
  · rw [htubes, hloop, List.map_append,
      redistribute_map_length cfg.tubeSize.toNat cfg.tubeCount.toNat b2
        hb2len, List.map_replicate]
    rfl
  · intro c
    rw [htubes, hloop, List.flatten_append, List.count_append,
      redistribute_flatten cfg.tubeSize.toNat cfg.tubeCount.toNat b2 hb2len,
      hperm.count_eq, buildTubes_flatten_count, hpc]
    have hz : (List.replicate (cfg.emptyTubeCount.getD 0).toNat
        ([] : List Nat)).flatten.count c = 0 := by
      simp
    rw [hz, Nat.add_zero]
    simp

/-! ## Adapter distribution facts -/

theorem natSplit_sum (q r : Nat) :
    ∀ cc : Nat,
      ((List.range cc).map (fun i => if i < r then q + 1 else q)).sum =
        cc * q + min cc r := by
  intro cc
  induction cc with
  | zero => simp
  | succ cc ih =>
    rw [List.range_succ, List.map_append, List.sum_append, List.map_cons,
      List.map_nil, List.sum_cons, List.sum_nil, ih, Nat.succ_mul]
    by_cases hc : cc < r
    · rw [if_pos hc]
      have h1 : min cc r = cc := by omega
      have h2 : min (cc + 1) r = cc + 1 := by omega
      rw [h1, h2]
      omega
    · rw [if_neg hc]
      have h1 : min cc r = r := by omega
      have h2 : min (cc + 1) r = r := by omega
      rw [h1, h2]
      omega

theorem calculateColorDistribution_length (cc ft : Nat) :
    (calculateColorDistribution cc ft).length = cc := by
  unfold calculateColorDistribution
  simp

theorem calculateColorDistribution_sum {cc : Nat} (ft : Nat) (hcc : 0 < cc) :
    (calculateColorDistribution cc ft).sum = (ft : Int) := by
  unfold calculateColorDistribution
  rw [← Nat.cast_list_sum, natSplit_sum]
  have h1 : min cc (ft % cc) = ft % cc := by
    have := Nat.mod_lt ft hcc
    omega
  rw [h1, Nat.div_add_mod]

theorem calculateColorDistribution_mem {cc : Nat} (ft : Nat) (hcc : 0 < cc)
    (hle : cc ≤ ft) :
    ∀ v ∈ calculateColorDistribution cc ft, 1 ≤ v := by
  intro v hv
  unfold calculateColorDistribution at hv
  rcases List.mem_map.1 hv with ⟨x, hx, rfl⟩
  rcases List.mem_map.1 hx with ⟨i, -, rfl⟩
  have hq : 1 ≤ ft / cc := (Nat.one_le_div_iff hcc).2 hle
  by_cases h : i < ft % cc
  · rw [if_pos h]
    omega
  · rw [if_neg h]
    omega

theorem calculateColorDistribution_getD (cc ft i : Nat) :
    (calculateColorDistribution cc ft).getD i 0 =
      if i < cc then
        (if i < ft % cc then ((ft / cc : Nat) : Int) + 1
         else ((ft / cc : Nat) : Int))
      else 0 := by
  by_cases hi : i < cc
  · have hlen : i < (calculateColorDistribution cc ft).length := by
      rw [calculateColorDistribution_length]
      exact hi
    rw [List.getD_eq_getElem _ _ hlen, if_pos hi]
    unfold calculateColorDistribution
    simp only [List.getElem_map, List.getElem_range]
    by_cases h2 : i < ft % cc
    · rw [if_pos h2, if_pos h2]
      push_cast
      ring
    · rw [if_neg h2, if_neg h2]
  · rw [List.getD_eq_default _ _ (by
      rw [calculateColorDistribution_length]
      omega), if_neg hi]

/-! ## First-occurrence lists (JavaScript Map iteration order) -/

theorem firstOccs_nil {α : Type} [DecidableEq α] :
    firstOccs ([] : List α) = [] := by
  unfold firstOccs
  rfl

theorem firstOccs_cons {α : Type} [DecidableEq α] (a : α) (l : List α) :
    firstOccs (a :: l) = a :: firstOccs (l.filter (fun x => x != a)) := by
  conv_lhs => unfold firstOccs

theorem mem_firstOccs_aux {α : Type} [DecidableEq α] :
    ∀ (n : Nat) (l : List α), l.length ≤ n →
      ∀ a, (a ∈ firstOccs l ↔ a ∈ l) := by
  intro n
  induction n with
  | zero =>
    intro l hl a
    have : l = [] := List.eq_nil_of_length_eq_zero (by omega)
    subst this
    rw [firstOccs_nil]
  | succ n ih =>
    intro l hl a
    cases l with
    | nil =>
      rw [firstOccs_nil]
    | cons b t =>
      rw [firstOccs_cons]
      have hlen : (t.filter (fun x => x != b)).length ≤ n := by
        have := List.length_filter_le (fun x => x != b) t
        simp only [List.length_cons] at hl
        omega
      constructor
      · intro h
        rcases List.mem_cons.1 h with h | h
        · exact h ▸ List.mem_cons_self b t
        · have := (ih _ hlen a).1 h
          exact List.mem_cons.2 (Or.inr (List.mem_filter.1 this).1)
      · intro h
        rcases List.mem_cons.1 h with h | h
        · exact h ▸ List.mem_cons_self b _
        · by_cases hab : a = b
          · exact hab ▸ List.mem_cons_self b _
          · refine List.mem_cons.2 (Or.inr ((ih _ hlen a).2 ?_))
            exact List.mem_filter.2 ⟨h, by
              simp only [bne_iff_ne]
              exact hab⟩

theorem mem_firstOccs {α : Type} [DecidableEq α] (l : List α) (a : α) :
    a ∈ firstOccs l ↔ a ∈ l :=
  mem_firstOccs_aux l.length l (Nat.le_refl _) a

/-! ## Cache pregeneration state machine -/

theorem iterWait_zero (s : PuzzleCacheState) :
    iterWait s 0 = waitForPregenerate s := rfl

theorem iterWait_succ (s : PuzzleCacheState) (n : Nat) :
    iterWait s (n + 1) = iterWait (waitForPregenerate s).2 n := rfl

theorem waitForPregenerate_memoized {s : PuzzleCacheState} {p : Nat}
    (h : s.pregeneratePromise = some p) :
    waitForPregenerate s = (p, s) := by
  unfold waitForPregenerate
  rw [h]

theorem iterWait_memoized {s : PuzzleCacheState} {p : Nat}
    (h : s.pregeneratePromise = some p) :
    ∀ n, iterWait s n = (p, s) := by
  intro n
  induction n with
  | zero =>
    rw [iterWait_zero, waitForPregenerate_memoized h]
  | succ n ih =>
    rw [iterWait_succ, waitForPregenerate_memoized h]
    exact ih

deriving instance DecidableEq for Except

/-! ## Claim theorems -/

/-- Claim C1 (determinism): with an explicitly supplied seed (number or
string), `createPuzzle` does not depend on the modelled `Math.random`
fallback draw, so two independent calls return identical results — the
same tubes element-for-element, the same `perColorTubes`, and the same
`seedUsed`. -/
theorem claim1_determinism (cfg : GeneratorConfig) (s : SeedVal)
    (f1 f2 : Nat) (h : cfg.seed = some s) :
    createPuzzle cfg f1 = createPuzzle cfg f2 := by
  have hk : makeSeedFrom cfg.seed f1 = makeSeedFrom cfg.seed f2 := by
    rw [h]
    cases s <;> rfl
  unfold createPuzzle
  rw [hk]

/-- Witness for C1 at `colorCount 3, tubeCount 3, tubeSize 4, seed 2`,
with two different fallback draws. -/
theorem claim1_determinism_witness :
    createPuzzle ⟨3, 3, 4, none, some (SeedVal.num 2), false, some 1⟩ 0 =
      createPuzzle ⟨3, 3, 4, none, some (SeedVal.num 2), false, some 1⟩ 1 :=
  claim1_determinism _ (SeedVal.num 2) 0 1 rfl

/-- Claim C2 (ball conservation): whenever `createPuzzle` returns without
error, the total length of all tubes equals `tubeCount × tubeSize`, which
also equals `sum(perColorTubes) × tubeSize`. -/
theorem claim2_ball_conservation (cfg : GeneratorConfig) (fb : Nat)
    (res : PuzzleResult) (h : createPuzzle cfg fb = Except.ok res) :
    ((res.tubes.map List.length).sum : Int) =
      cfg.tubeCount * cfg.tubeSize ∧
    ((res.tubes.map List.length).sum : Int) =
      res.perColorTubes.sum * cfg.tubeSize := by
  obtain ⟨hmap, -, hsum⟩ := createPuzzle_ok_shape h
  obtain ⟨hts, htc, -⟩ := createPuzzle_ok_inv h
  have h1 : (res.tubes.map List.length).sum =
      cfg.tubeCount.toNat * cfg.tubeSize.toNat := by
    rw [hmap, List.sum_append, List.sum_replicate, List.sum_replicate]
    simp
  have h2 : ((res.tubes.map List.length).sum : Int) =
      cfg.tubeCount * cfg.tubeSize := by
    rw [h1, Nat.cast_mul, Int.toNat_of_nonneg (by omega),
      Int.toNat_of_nonneg (by omega)]
  exact ⟨h2, by rw [h2, hsum]⟩

/-- Witness for C2 at `colorCount 3, tubeCount 3, tubeSize 4, seed 2`. -/
theorem claim2_ball_conservation_witness :
    ((((createPuzzle ⟨3, 3, 4, none, some (SeedVal.num 2), false, some 1⟩
          0).toOption.getD ⟨[], [], 0⟩).tubes.map List.length).sum : Int) =
        3 * 4 ∧
    ((((createPuzzle ⟨3, 3, 4, none, some (SeedVal.num 2), false, some 1⟩
          0).toOption.getD ⟨[], [], 0⟩).tubes.map List.length).sum : Int) =
      ((createPuzzle ⟨3, 3, 4, none, some (SeedVal.num 2), false, some 1⟩
          0).toOption.getD ⟨[], [], 0⟩).perColorTubes.sum * 4 :=
  claim2_ball_conservation
    ⟨3, 3, 4, none, some (SeedVal.num 2), false, some 1⟩ 0
    ((createPuzzle ⟨3, 3, 4, none, some (SeedVal.num 2), false, some 1⟩
      0).toOption.getD ⟨[], [], 0⟩) (by decide)

/-- Claim C3 (per-color multiple): whenever `createPuzzle` returns without
error, every color's total occurrence count across all tubes equals
`perColorTubes[color] × tubeSize`, hence is an exact multiple of
`tubeSize`. -/
theorem claim3_per_color_multiple (cfg : GeneratorConfig) (fb : Nat)
    (res : PuzzleResult) (c : Nat)
    (h : createPuzzle cfg fb = Except.ok res) :
    res.tubes.flatten.count c =
      (res.perColorTubes.getD c 0).toNat * cfg.tubeSize.toNat ∧
    cfg.tubeSize.toNat ∣ res.tubes.flatten.count c := by
  obtain ⟨-, hcount, -⟩ := createPuzzle_ok_shape h
  refine ⟨hcount c, ?_⟩
  rw [hcount c]
  exact dvd_mul_left _ _

/-- Witness for C3 at `colorCount 3, tubeCount 3, tubeSize 4, seed 2`,
color index 1. -/
theorem claim3_per_color_multiple_witness :
    ((createPuzzle ⟨3, 3, 4, none, some (SeedVal.num 2), false, some 1⟩
        0).toOption.getD ⟨[], [], 0⟩).tubes.flatten.count 1 =
      ((((createPuzzle ⟨3, 3, 4, none, some (SeedVal.num 2), false, some 1⟩
        0).toOption.getD ⟨[], [], 0⟩).perColorTubes.getD 1 0).toNat) * 4 ∧
    (4 : Nat) ∣ ((createPuzzle ⟨3, 3, 4, none, some (SeedVal.num 2), false,
        some 1⟩ 0).toOption.getD ⟨[], [], 0⟩).tubes.flatten.count 1 :=
  claim3_per_color_multiple
    ⟨3, 3, 4, none, some (SeedVal.num 2), false, some 1⟩ 0
    ((createPuzzle ⟨3, 3, 4, none, some (SeedVal.num 2), false, some 1⟩
      0).toOption.getD ⟨[], [], 0⟩) 1 (by decide)

/-- Claim C6 (corrected): `createPuzzle` raises exactly when `raisesB`
holds — the specification's condition (`claimRaisesB`) plus the missed
case of a supplied `perColorTubes` containing a negative entry with
`allowZeroTubesForColor = true`, which trips the internal-mismatch
error. -/
theorem claim6_config_error_iff (cfg : GeneratorConfig) (fb : Nat) :
    isError (createPuzzle cfg fb) = true ↔ raisesB cfg = true := by
  rw [createPuzzle_isError_eq]

/-- Counterexample for C6 as stated: with `colorCount 2, tubeCount 1,
tubeSize 1, perColorTubes [2, -1], allowZeroTubesForColor true`, every
condition the claim lists is absent, yet `createPuzzle` raises the
internal-mismatch error. -/
theorem claim6_counterexample :
    isError (createPuzzle ⟨2, 1, 1, some [2, -1], some (SeedVal.num 0),
        true, none⟩ 0) = true ∧
    claimRaisesB ⟨2, 1, 1, some [2, -1], some (SeedVal.num 0), true,
        none⟩ = false := by
  decide

/-- Counterexample for C7 as stated: `createPuzzle` with `colorCount 3,
tubeCount 6, tubeSize 4, seed 42, emptyTubeCount 2` cannot give each of
the colors 0, 1, 2 exactly 6 occurrences — every color's count is a
multiple of the tube size 4, and 6 is not. -/
theorem claim7_counterexample :
    ¬((createPuzzle ⟨3, 6, 4, none, some (SeedVal.num 42), false, some 2⟩
        0).toOption.map
      (fun r => (r.tubes.flatten.count 0, r.tubes.flatten.count 1,
        r.tubes.flatten.count 2)) = some (6, 6, 6)) := by
  intro h
  cases hcp : createPuzzle ⟨3, 6, 4, none, some (SeedVal.num 42), false,
      some 2⟩ 0 with
  | error e =>
    rw [hcp] at h
    exact absurd h (by simp [Except.toOption])
  | ok res =>
    rw [hcp] at h
    have h' : (res.tubes.flatten.count 0, res.tubes.flatten.count 1,
        res.tubes.flatten.count 2) = (6, 6, 6) := Option.some.inj h
    have h0 : res.tubes.flatten.count 0 = 6 := congrArg Prod.fst h'
    obtain ⟨-, hcount, -⟩ := createPuzzle_ok_shape hcp
    have h4 := hcount 0
    rw [h0] at h4
    have h5 : 6 = (res.perColorTubes.getD 0 0).toNat * 4 := h4
    omega

/-- Claim C7 (corrected): the concrete run returns without error with
exactly 8 tubes — the 6 filled tubes of length 4 followed by the 2 empty
tubes — and per-color tube distribution `[1, 3, 2]`, so the colors 0, 1, 2
occur 4, 12 and 8 times (`4 × perColorTubes`, not 6 each). -/
theorem claim7_concrete_example :
    ∃ res, createPuzzle ⟨3, 6, 4, none, some (SeedVal.num 42), false,
        some 2⟩ 0 = Except.ok res ∧
      res.tubes.map List.length = [4, 4, 4, 4, 4, 4, 0, 0] ∧
      res.perColorTubes = [1, 3, 2] ∧
      res.tubes.flatten.count 0 = 4 ∧
      res.tubes.flatten.count 1 = 12 ∧
      res.tubes.flatten.count 2 = 8 := by
  have hra : raisesB ⟨3, 6, 4, none, some (SeedVal.num 42), false,
      some 2⟩ = false := by decide
  have hie := createPuzzle_isError_eq
    ⟨3, 6, 4, none, some (SeedVal.num 42), false, some 2⟩ 0
  rw [hra] at hie
  obtain ⟨res, hres⟩ := isError_false_ok hie
  obtain ⟨hmap, hcount, -⟩ := createPuzzle_ok_shape hres
  obtain ⟨-, -, -, dist, st1, hcd, -, hpc, -, -⟩ := createPuzzle_ok_inv hres
  have hch : chooseDistribution ⟨3, 6, 4, none, some (SeedVal.num 42),
      false, some 2⟩ (makeSeedFrom (some (SeedVal.num 42)) 0) =
      Except.ok ([1, 3, 2], 1199730185) := by decide
  have hdist : dist = [1, 3, 2] := by
    rw [hch] at hcd
    simp only [Except.ok.injEq, Prod.mk.injEq] at hcd
    exact hcd.1.symm
  have hpc2 : res.perColorTubes = [1, 3, 2] := by rw [hpc, hdist]
  refine ⟨res, hres, ?_, hpc2, ?_, ?_, ?_⟩
  · rw [hmap]
    rfl
  · rw [hcount 0, hpc2]
    rfl
  · rw [hcount 1, hpc2]
    rfl
  · rw [hcount 2, hpc2]
    rfl

/-- Claim C4: `generatePuzzleWithAdapter` derives `colorCount =
clamp(difficulty + 2, 3, 12)`, `actualEmptyTubes = clamp(emptyTubeCount,
1, 6)`, `filledTubes = 14 − actualEmptyTubes`, `actualColorCount =
min(colorCount, filledTubes)`, and an even per-color split of
`filledTubes` with the first `filledTubes mod actualColorCount` colors
receiving one extra tube; in particular difficulties 1, 10, 15, 0 yield
3, 12, 12, 3 colors. -/
theorem claim4_adapter_derivation (d e : Int) :
    (deriveAdapterParams d e).colorCount = min (max (d + 2) 3) 12 ∧
    (deriveAdapterParams d e).actualEmptyTubes = min (max e 1) 6 ∧
    (deriveAdapterParams d e).filledTubes =
      14 - (deriveAdapterParams d e).actualEmptyTubes ∧
    (deriveAdapterParams d e).actualColorCount =
      min (deriveAdapterParams d e).colorCount
        (deriveAdapterParams d e).filledTubes ∧
    (deriveAdapterParams d e).perColorTubes.length =
      (deriveAdapterParams d e).actualColorCount.toNat ∧
    (∀ i : Nat, (deriveAdapterParams d e).perColorTubes.getD i 0 =
      if i < (deriveAdapterParams d e).actualColorCount.toNat then
        (if i < (deriveAdapterParams d e).filledTubes.toNat %
            (deriveAdapterParams d e).actualColorCount.toNat then
          (((deriveAdapterParams d e).filledTubes.toNat /
            (deriveAdapterParams d e).actualColorCount.toNat : Nat) :
            Int) + 1
        else
          (((deriveAdapterParams d e).filledTubes.toNat /
            (deriveAdapterParams d e).actualColorCount.toNat : Nat) :
            Int))
      else 0) ∧
    (deriveAdapterParams 1 e).colorCount = 3 ∧
    (deriveAdapterParams 10 e).colorCount = 12 ∧
    (deriveAdapterParams 15 e).colorCount = 12 ∧
    (deriveAdapterParams 0 e).colorCount = 3 := by
  unfold deriveAdapterParams
  dsimp only
  refine ⟨by omega, by omega, rfl, rfl,
    calculateColorDistribution_length _ _,
    fun i => calculateColorDistribution_getD _ _ i,
    by omega, by omega, by omega, by omega⟩

/-- Claim C8: the shuffle-retry loop of `createPuzzle` always terminates
with between 1 and 100 attempts; it returns tubes that are a
redistribution of a permutation of the input balls, and it stops early
only when the color-diversity bar is met — when the bar is never met the
whole 100-attempt budget is spent and the last arrangement is still
returned. -/
theorem claim8_bounded_retry (tc ts minC : Nat) (balls : List Nat)
    (st : Nat) :
    1 ≤ (shuffleLoop tc ts minC balls st 0 100).attempts ∧
    (shuffleLoop tc ts minC balls st 0 100).attempts ≤ 100 ∧
    (∃ b2, List.Perm b2 balls ∧
      (shuffleLoop tc ts minC balls st 0 100).tubes =
        redistribute ts b2 tc) ∧
    (diversityMet (shuffleLoop tc ts minC balls st 0 100).tubes minC =
        true ∨
      (shuffleLoop tc ts minC balls st 0 100).attempts = 100) := by
  obtain ⟨hex, h1, h2, h3⟩ :=
    shuffleLoop_spec tc ts minC 100 balls st 0 (by omega)
  exact ⟨h1, h2, hex, h3⟩

/-- Claim C10: starting from the uninitialized cache module state, any
number of successive `waitForPregenerate` calls all return the one
memoized in-flight promise, and the pregeneration work is triggered
exactly once — later calls leave the state untouched. -/
theorem claim10_single_inflight (n : Nat) :
    (iterWait initCacheState n).1 = (iterWait initCacheState 0).1 ∧
    (iterWait initCacheState n).2.triggerCount = 1 ∧
    (iterWait initCacheState n).2 = (iterWait initCacheState 0).2 := by
  have h0 : iterWait initCacheState 0 = (0, ⟨some 0, 1, 1⟩) := rfl
  cases n with
  | zero => exact ⟨rfl, rfl, rfl⟩
  | succ n =>
    have hs : (waitForPregenerate initCacheState).2 =
        (⟨some 0, 1, 1⟩ : PuzzleCacheState) := rfl
    rw [iterWait_succ, hs, @iterWait_memoized ⟨some 0, 1, 1⟩ 0 rfl n, h0]
    exact ⟨rfl, rfl, rfl⟩

/-- Claim C5: `validatePuzzle` never throws (it is a total function), its
`valid` flag is exactly the emptiness of its collected error list, and
that list is empty precisely when the board has 14 tubes, every tube has
length 0 or 8, exactly 2 tubes are empty, and every color's ball count
over the full tubes is a multiple of 8. -/
theorem claim5_validatePuzzle_spec (tubes : List (List BallColor)) :
    (validatePuzzle tubes).valid = (validatePuzzle tubes).errors.isEmpty ∧
    ((validatePuzzle tubes).errors = [] ↔
      (tubes.length = 14 ∧
       (∀ t ∈ tubes, t.length = 0 ∨ t.length = 8) ∧
       tubes.countP (fun t => t.isEmpty) = 2 ∧
       ∀ c : BallColor,
         ((tubes.filter (fun t => t.length = 8)).flatten.count c) % 8 =
           0)) := by
  constructor
  · rfl
  · unfold validatePuzzle
    dsimp only
    rw [List.append_eq_nil, List.append_eq_nil, List.append_eq_nil]
    have hA : ((if tubes.length ≠ 14 then
        [PuzzleError.tubeCountErr tubes.length] else []) = []) ↔
        tubes.length = 14 := by
      constructor
      · intro h14
        by_contra hne
        rw [if_pos hne] at h14
        exact List.noConfusion h14
      · intro h14
        rw [if_neg (not_not_intro h14)]
    have hB : ((tubes.filter (fun t =>
          ¬(t.length = 0 ∨ t.length = 8))).map (fun t =>
          PuzzleError.tubeLenErr t.length) = []) ↔
        ∀ t ∈ tubes, t.length = 0 ∨ t.length = 8 := by
      rw [List.map_eq_nil_iff, List.filter_eq_nil_iff]
      constructor
      · intro h t ht
        have h2 := h t ht
        simp only [decide_eq_true_eq] at h2
        exact not_not.1 h2
      · intro h t ht
        simp only [decide_eq_true_eq]
        exact not_not_intro (h t ht)
    have hC : ((if tubes.countP (fun t => t.isEmpty) ≠ 2 then
        [PuzzleError.emptyCountErr (tubes.countP (fun t => t.isEmpty))]
        else []) = []) ↔
        tubes.countP (fun t => t.isEmpty) = 2 := by
      constructor
      · intro h2
        by_contra hne
        rw [if_pos hne] at h2
        exact List.noConfusion h2
      · intro h2
        rw [if_neg (not_not_intro h2)]
    have hD : (((firstOccs
          ((tubes.filter (fun t => t.length = 8)).flatten)).filterMap
        (fun c =>
          if ((tubes.filter (fun t => t.length = 8)).flatten.count c) %
              8 ≠ 0 then
            some (PuzzleError.colorCountErr c
              (((tubes.filter (fun t => t.length = 8)).flatten.count c)))
          else none) = []) ↔
        ∀ c : BallColor,
          ((tubes.filter (fun t => t.length = 8)).flatten.count c) % 8 =
            0) := by
      rw [List.filterMap_eq_nil_iff]
      constructor
      · intro h c
        by_cases hc : c ∈ (tubes.filter (fun t => t.length = 8)).flatten
        · have hfc := h c ((mem_firstOccs _ _).2 hc)
          by_contra hmod
          rw [if_pos hmod] at hfc
          exact Option.noConfusion hfc
        · rw [List.count_eq_zero.2 hc]
      · intro h c hcmem
        rw [if_neg (not_not_intro (h c))]
    rw [hA, hB, hC, hD]
    exact ⟨fun h => ⟨h.1.1.1, h.1.1.2, h.1.2, h.2⟩,
      fun h => ⟨⟨⟨h.1, h.2.1⟩, h.2.2.1⟩, h.2.2.2⟩⟩

/-- Claim C9 (implicit, adapter call safety): for every integer difficulty
and emptyTubeCount and any seed, the derived `perColorTubes` has length
`actualColorCount`, sums to `filledTubes`, and has every entry at least 1
(because `actualColorCount ≤ filledTubes`), so every error-raising branch
of `createPuzzle` is unreachable and `generatePuzzleWithAdapter` never
throws. -/
theorem claim9_adapter_never_throws (d e : Int) (seed : Option SeedVal)
    (fb : Nat) :
    (deriveAdapterParams d e).perColorTubes.length =
      (deriveAdapterParams d e).actualColorCount.toNat ∧
    (deriveAdapterParams d e).perColorTubes.sum =
      (deriveAdapterParams d e).filledTubes ∧
    (∀ v ∈ (deriveAdapterParams d e).perColorTubes, 1 ≤ v) ∧
    (deriveAdapterParams d e).actualColorCount ≤
      (deriveAdapterParams d e).filledTubes ∧
    ∃ r, generatePuzzleWithAdapter d e seed fb = Except.ok r := by
  have hacc_pos : 0 < (deriveAdapterParams d e).actualColorCount := by
    unfold deriveAdapterParams
    dsimp only
    omega
  have hft_pos : 0 < (deriveAdapterParams d e).filledTubes := by
    unfold deriveAdapterParams
    dsimp only
    omega
  have hle : (deriveAdapterParams d e).actualColorCount ≤
      (deriveAdapterParams d e).filledTubes := by
    unfold deriveAdapterParams
    dsimp only
    omega
  have haccN : 0 < (deriveAdapterParams d e).actualColorCount.toNat := by
    omega
  have hleN : (deriveAdapterParams d e).actualColorCount.toNat ≤
      (deriveAdapterParams d e).filledTubes.toNat := by
    omega
  have hpct : (deriveAdapterParams d e).perColorTubes =
      calculateColorDistribution
        (deriveAdapterParams d e).actualColorCount.toNat
        (deriveAdapterParams d e).filledTubes.toNat := rfl
  have hlen := calculateColorDistribution_length
    (deriveAdapterParams d e).actualColorCount.toNat
    (deriveAdapterParams d e).filledTubes.toNat
  have hsum' := calculateColorDistribution_sum
    (deriveAdapterParams d e).filledTubes.toNat haccN
  have hmem := calculateColorDistribution_mem
    (deriveAdapterParams d e).filledTubes.toNat haccN hleN
  refine ⟨by rw [hpct]; exact hlen, ?_, by rw [hpct]; exact hmem, hle, ?_⟩
  · rw [hpct, hsum']
    omega
  · have hany : (deriveAdapterParams d e).perColorTubes.any
        (fun v => decide (v ≤ 0)) = false := by
      rw [List.any_eq_false]
      intro v hv
      simp only [decide_eq_true_eq]
      rw [hpct] at hv
      have := hmem v hv
      omega
    have hra : raisesB ⟨(deriveAdapterParams d e).actualColorCount,
        (deriveAdapterParams d e).filledTubes, 8,
        some (deriveAdapterParams d e).perColorTubes, seed, false,
        some (deriveAdapterParams d e).actualEmptyTubes⟩ = false := by
      unfold raisesB claimRaisesB
      dsimp only
      have e1 : decide ((8 : Int) ≤ 0) = false := by decide
      have e2 : decide ((deriveAdapterParams d e).filledTubes ≤ 0) =
          false := decide_eq_false (by omega)
      have e3 : decide ((deriveAdapterParams d e).actualColorCount ≤ 0) =
          false := decide_eq_false (by omega)
      have e4 : decide
          ((((deriveAdapterParams d e).perColorTubes.length : Nat) : Int) ≠
            (deriveAdapterParams d e).actualColorCount) = false :=
        decide_eq_false (not_not_intro (by
          rw [hpct, hlen]
          omega))
      have e5 : decide ((deriveAdapterParams d e).perColorTubes.sum ≠
            (deriveAdapterParams d e).filledTubes) = false :=
        decide_eq_false (not_not_intro (by
          rw [hpct, hsum']
          omega))
      simp [e1, e2, e3, e4, e5, hany]
    have hie := createPuzzle_isError_eq
      ⟨(deriveAdapterParams d e).actualColorCount,
        (deriveAdapterParams d e).filledTubes, 8,
        some (deriveAdapterParams d e).perColorTubes, seed, false,
        some (deriveAdapterParams d e).actualEmptyTubes⟩ fb
    rw [hra] at hie
    obtain ⟨r0, hr0⟩ := isError_false_ok hie
    unfold generatePuzzleWithAdapter
    dsimp only
    rw [hr0]
    exact ⟨_, rfl⟩
